import Mathlib

/-!
Shallow embedding of the rolecall-bot server (src/server.py) in Lean 4.

Conventions of the embedding:
- Python strings are Lean `String`; string primitives (strip, lower,
  comparison) are modelled on the underlying character list so that the
  kernel can evaluate them (ASCII fragment of the Python behaviour).
- The Python `set` of machines is modelled as the list of its elements in
  iteration order (Python set iteration order is unspecified and can depend
  on insertion history, so the embedding keeps the order abstract as a list;
  set membership is list membership and `add` of a fresh element appends).
- Python `sorted(..., key=str.lower)` is a stable sort by the lowered key;
  it is modelled by the stable `List.insertionSort` over the key order
  (any two stable sorts agree extensionally).
- The Telegram gateway is an external capability: one reconciliation makes
  at most one edit attempt and one send attempt, so a `GatewayStep` records
  the outcome the environment would give to each; the reconciler emits the
  trace of gateway calls it performs.
- Time is `Int` (seconds); machine ids are `Nat`; Python truthiness of
  `int | None` fields is `pyTruthy`.
-/

/-- Model of Python `str.lower` (ASCII fragment), as used by `_norm` and the
sort key in `_render_checklist_text`. -/
def pyLower (s : String) : String := String.mk (s.data.map Char.toLower)

/-- Model of Python `str.strip` with no argument: remove whitespace from both
ends. -/
def pyStrip (s : String) : String :=
  String.mk (((s.data.dropWhile Char.isWhitespace).reverse.dropWhile
    Char.isWhitespace).reverse)

/-- Lexicographic comparison of character lists by code point, the order
Python uses to compare strings. -/
def pyCharsLe : List Char → List Char → Bool
  | [], _ => true
  | _ :: _, [] => false
  | a :: as, b :: bs =>
    if a < b then true
    else if b < a then false
    else pyCharsLe as bs

/-- Key order used by `sorted(extras, key=str.lower)`: compare the lowered
strings. -/
def keyLe (a b : String) : Prop :=
  pyCharsLe (pyLower a).data (pyLower b).data = true

instance : DecidableRel keyLe := fun a b => by unfold keyLe; infer_instance

/-- Source line 34: `_norm(s) = (s or "").strip().lower()`. -/
def _norm (s : String) : String := pyLower (pyStrip s)

/-- Source line 12: `SESSION_EXPIRE_SECONDS = 60 * 40`. -/
def SESSION_EXPIRE_SECONDS : Int := 60 * 40

/-- Source line 16: the configured fixed display order, `DEVICE_ORDER = []`
in the deployed code. The renderer below is parametric in the order so the
ordering claims can be stated for any configuration. -/
def DEVICE_ORDER : List String := []

/-- Lines 43 to 46 of `_render_checklist_text`: fixed-order devices first,
then the machines not in the fixed order, sorted by lowered name. -/
def displayList (ord : List String) (machines : List String) : List String :=
  ord ++ List.insertionSort keyLe (machines.filter (fun m => decide (m ∉ ord)))

/-- Lines 49 to 52: one cell per display item, check mark iff the item is a
reported machine. -/
def cellsOf (ord : List String) (machines : List String) : List String :=
  (displayList ord machines).map (fun name =>
    (if name ∈ machines then "✅" else "☐") ++ " " ++ name)

/-- Model of `max(len(c) for c in cells)` (0 on the empty list; the code only
uses it when `cells` is nonempty). -/
def maxLen (cells : List String) : Nat :=
  cells.foldl (fun a c => Nat.max a c.length) 0

/-- Model of Python `str.ljust`: pad on the right with spaces up to width
`w`; a longer string is returned unchanged. -/
def pyLjust (s : String) (w : Nat) : String :=
  s ++ String.mk (List.replicate (w - s.length) ' ')

/-- Model of `"\n".join`. -/
def joinNl : List String → String
  | [] => ""
  | [x] => x
  | x :: y :: rest => x ++ "\n" ++ joinNl (y :: rest)

/-- Source lines 37 to 70: `_render_checklist_text(title, machines)`,
parametric in the configured `DEVICE_ORDER`. -/
def _render_checklist_text (ord : List String) (title : String)
    (machines : List String) : String :=
  let cells := cellsOf ord machines
  let col_width := if cells = [] then 10 else maxLen cells + 2
  let rows := (cells.length + 1) / 2
  let lines := (List.range rows).map (fun r =>
    pyLjust (cells.getD r "") col_width ++ cells.getD (r + rows) "")
  let grid := if lines = [] then "(no devices yet)" else joinNl lines
  "🔴 Rollcall – " ++ title ++ "\n<pre>" ++ grid ++ "</pre>"

/-- Trace element: one call made on the Telegram gateway. -/
inductive GCall where
  | send (text : String)
  | edit (id : Nat) (text : String)
  | delete (id : Nat)
deriving Repr, DecidableEq

/-- Environment outcomes for the at-most-one edit and at-most-one send a
single reconciliation can make: `editOutcome` is what `_telegram_edit` would
return, `sendOutcome` what `_telegram_send` would return (`none` = failure;
the code also treats a returned id of 0 as falsy). -/
structure GatewayStep where
  editOutcome : Bool
  sendOutcome : Option Nat
deriving Repr, DecidableEq

/-- Python truthiness of an `int | None` value. -/
def pyTruthy : Option Nat → Bool
  | none => false
  | some n => n != 0

/-- Source lines 19 to 27: the per-live-key state record. -/
structure Session where
  title : String
  machines : List String
  last_update : Int
  message_id : Option Nat
deriving Repr, DecidableEq

/-- The `checklists` dict, modelled as an association list keyed by the
normalized live key. -/
abbrev Checklists := List (String × Session)

/-- Dictionary lookup. -/
def dictGet : Checklists → String → Option Session
  | [], _ => none
  | (k, v) :: rest, key => if k = key then some v else dictGet rest key

/-- Dictionary update: replace the binding for `key`, or append a new one. -/
def dictSet : Checklists → String → Session → Checklists
  | [], key, v => [(key, v)]
  | (k, w) :: rest, key, v =>
    if k = key then (key, v) :: rest else (k, w) :: dictSet rest key v

/-- Source lines 159 to 164: the fresh session created on a missing or
expired entry. -/
def freshSession (username : String) (now : Int) : Session :=
  { title := username, machines := [], last_update := now, message_id := none }

/-- Source lines 156 to 165: look the live key up and replace the session
when absent or expired. The code stores the fresh session into the dict
immediately; since every endpoint path ends by storing the final session for
the key, the embedding performs the single equivalent final `dictSet`. -/
def resolveState (cl : Checklists) (live_key username : String) (now : Int) :
    Session :=
  match dictGet cl live_key with
  | none => freshSession username now
  | some st =>
    if now - st.last_update ≥ SESSION_EXPIRE_SECONDS then
      freshSession username now
    else st

/-- Source lines 120 to 137: `_update_single_message`, acting on the session
of the live key. Returns the updated session and the trace of gateway calls
in the order the code issues them (edit attempt, then send, then best-effort
delete of a replaced message). -/
def _update_single_message (ord : List String) (g : GatewayStep)
    (st : Session) : Session × List GCall :=
  let text := _render_checklist_text ord st.title st.machines
  let editAttempt : List GCall :=
    if pyTruthy st.message_id then [GCall.edit (st.message_id.getD 0) text]
    else []
  if pyTruthy st.message_id && g.editOutcome then
    (st, editAttempt)
  else
    let old_id := st.message_id
    if pyTruthy g.sendOutcome then
      let new_id := g.sendOutcome.getD 0
      let delCalls : List GCall :=
        if pyTruthy old_id ∧ old_id.getD 0 ≠ new_id then
          [GCall.delete (old_id.getD 0)]
        else []
      ({ st with message_id := some new_id },
        editAttempt ++ [GCall.send text] ++ delCalls)
    else
      (st, editAttempt ++ [GCall.send text])

/-- Result of one `/rollcall` request: HTTP 400 on missing fields, otherwise
the returned status string. -/
inductive RollStatus where
  | invalid
  | duplicate
  | ok
deriving Repr, DecidableEq

/-- Outcome of one `/rollcall` request: status, new store, gateway trace. -/
structure RollResult where
  status : RollStatus
  store : Checklists
  calls : List GCall
deriving Repr, DecidableEq

/-- Source lines 139 to 178: the `/rollcall` endpoint body after JSON
parsing, parametric in the configured order, the gateway outcomes for this
request, and the current clock. -/
def rollcall (ord : List String) (g : GatewayStep) (now : Int)
    (cl : Checklists) (usernameRaw machineRaw : String) : RollResult :=
  let username := pyStrip usernameRaw
  let machine_name := pyStrip machineRaw
  if username = "" ∨ machine_name = "" then ⟨.invalid, cl, []⟩
  else
    let live_key := _norm username
    let state := resolveState cl live_key username now
    if machine_name ∈ state.machines then
      ⟨.duplicate, dictSet cl live_key { state with last_update := now }, []⟩
    else
      let state1 := { state with
        machines := state.machines ++ [machine_name], last_update := now }
      let upd := _update_single_message ord g state1
      ⟨.ok, dictSet cl live_key upd.1, upd.2⟩

/-- Status of one `/logout` request. -/
inductive LogoutStatus where
  | invalid
  | warning_sent
deriving Repr, DecidableEq

/-- Source lines 180 to 201: the `/logout` endpoint body after JSON parsing.
The send result is ignored, so no gateway outcome is consumed. -/
def logout (usernameRaw : String) : LogoutStatus × List GCall :=
  let username0 := pyStrip usernameRaw
  if username0 = "" then (.invalid, [])
  else
    let username := _norm username0
    (.warning_sent,
      [GCall.send ("⚠️ Tài khoản <b>" ++ username ++ "</b> bị đăng xuất.")])

/-- One check-in request in a scenario: its clock value, the gateway
outcomes available to its reconciliation, and the machine field. -/
structure CheckIn where
  now : Int
  g : GatewayStep
  machine : String
deriving Repr, DecidableEq

/-- Run a sequence of check-ins for one username, collecting the final
store, the concatenated gateway trace, and the statuses. -/
def runSession (ord : List String) (u : String) :
    Checklists → List CheckIn → Checklists × List GCall × List RollStatus
  | cl, [] => (cl, [], [])
  | cl, c :: rest =>
    let r := rollcall ord c.g c.now cl u c.machine
    let t := runSession ord u r.store rest
    (t.1, r.calls ++ t.2.1, r.status :: t.2.2)

def isSend : GCall → Bool
  | .send _ => true
  | _ => false

def isEdit : GCall → Bool
  | .edit _ _ => true
  | _ => false

def isDelete : GCall → Bool
  | .delete _ => true
  | _ => false

def countSends (l : List GCall) : Nat := (l.filter isSend).length

def countEdits (l : List GCall) : Nat := (l.filter isEdit).length

def countDeletes (l : List GCall) : Nat := (l.filter isDelete).length

/-- Side conditions making every check-in of a scenario a fresh, in-TTL,
edit-succeeding one, relative to the machines already present and the time
of the previous activity. -/
def goodInputs (machines : List String) (last : Int) : List CheckIn → Bool
  | [] => true
  | c :: rest =>
    pyStrip c.machine ≠ "" && decide (pyStrip c.machine ∉ machines) &&
    decide (c.now - last < SESSION_EXPIRE_SECONDS) && c.g.editOutcome &&
    goodInputs (machines ++ [pyStrip c.machine]) c.now rest

/-- Row count of the two-column layout: the ceiling of half the cell
count. -/
def rowsOf (cells : List String) : Nat := (cells.length + 1) / 2

/-- Grid cell at row `r` and column `c` under column-major placement with
`rows` rows. -/
def gridCell (cells : List String) (rows r c : Nat) : Option String :=
  cells[c * rows + r]?

/-- Modelled from the spec, section 4.2 steps 3 and 4: the layout stated
there (item i at row i mod rows and column i div rows with rows the ceiling
of half the item count, column one padded to the longest cell length plus 2,
a header line followed by the grid in a pre block, and a placeholder when
there are no items), to be compared with the renderer from the source. -/
def renderSpecC8 (ord : List String) (title : String)
    (machines : List String) : String :=
  let cells := cellsOf ord machines
  let rows := rowsOf cells
  let w := maxLen cells + 2
  let grid :=
    if cells.length = 0 then "(no devices yet)"
    else joinNl ((List.range rows).map (fun r =>
      pyLjust ((gridCell cells rows r 0).getD "") w ++
        (gridCell cells rows r 1).getD ""))
  "🔴 Rollcall – " ++ title ++ "\n<pre>" ++ grid ++ "</pre>"

/-! ## Helper lemmas about the embedding -/

lemma pyTruthy_some {o : Option Nat} (h : pyTruthy o = true) :
    o = some (o.getD 0) ∧ o.getD 0 ≠ 0 := by
  cases o with
  | none => simp [pyTruthy] at h
  | some n => simpa [pyTruthy] using h

lemma dictGet_dictSet_self (cl : Checklists) (k : String) (v : Session) :
    dictGet (dictSet cl k v) k = some v := by
  induction cl with
  | nil => simp [dictGet, dictSet]
  | cons p rest ih =>
    obtain ⟨k1, v1⟩ := p
    by_cases h : k1 = k
    · subst h; simp [dictGet, dictSet]
    · simp [dictGet, dictSet, h, ih]

lemma update_preserves (ord : List String) (g : GatewayStep) (st : Session) :
    (_update_single_message ord g st).1.title = st.title ∧
    (_update_single_message ord g st).1.machines = st.machines ∧
    (_update_single_message ord g st).1.last_update = st.last_update := by
  simp only [_update_single_message]
  by_cases h1 : pyTruthy st.message_id && g.editOutcome
  · simp [h1]
  · by_cases h2 : pyTruthy g.sendOutcome
    · simp [h1, h2]
    · simp [h1, h2]

lemma update_edit_success (ord : List String) (g : GatewayStep) (st : Session)
    (hid : pyTruthy st.message_id = true) (he : g.editOutcome = true) :
    _update_single_message ord g st =
      (st, [GCall.edit (st.message_id.getD 0)
        (_render_checklist_text ord st.title st.machines)]) := by
  simp [_update_single_message, hid, he]

lemma update_fresh_send (ord : List String) (g : GatewayStep) (st : Session)
    (hid : pyTruthy st.message_id = false)
    (hs : pyTruthy g.sendOutcome = true) :
    _update_single_message ord g st =
      ({ st with message_id := some (g.sendOutcome.getD 0) },
        [GCall.send (_render_checklist_text ord st.title st.machines)]) := by
  simp [_update_single_message, hid, hs]

lemma update_send_fail (ord : List String) (g : GatewayStep) (st : Session)
    (hs : pyTruthy g.sendOutcome = false) :
    (_update_single_message ord g st).1 = st := by
  simp only [_update_single_message]
  by_cases h1 : pyTruthy st.message_id && g.editOutcome
  · simp [h1]
  · simp [h1, hs]

lemma resolveState_none {cl : Checklists} {k : String} (un : String) (now : Int)
    (h : dictGet cl k = none) :
    resolveState cl k un now = freshSession un now := by
  simp [resolveState, h]

lemma resolveState_live {cl : Checklists} {k : String} {s : Session}
    (un : String) (now : Int) (h : dictGet cl k = some s)
    (hl : ¬ now - s.last_update ≥ SESSION_EXPIRE_SECONDS) :
    resolveState cl k un now = s := by
  simp [resolveState, h, hl]

lemma resolveState_expired {cl : Checklists} {k : String} {s : Session}
    (un : String) (now : Int) (h : dictGet cl k = some s)
    (he : now - s.last_update ≥ SESSION_EXPIRE_SECONDS) :
    resolveState cl k un now = freshSession un now := by
  simp [resolveState, h, he]

lemma rollcall_invalid (ord : List String) (g : GatewayStep) (now : Int)
    (cl : Checklists) (u m : String) (h : pyStrip u = "" ∨ pyStrip m = "") :
    rollcall ord g now cl u m = ⟨.invalid, cl, []⟩ := by
  simp only [rollcall]
  rw [if_pos h]

lemma rollcall_duplicate (ord : List String) (g : GatewayStep) (now : Int)
    (cl : Checklists) (u m : String) {st : Session}
    (hu : pyStrip u ≠ "") (hm : pyStrip m ≠ "")
    (hstate : resolveState cl (_norm (pyStrip u)) (pyStrip u) now = st)
    (hmem : pyStrip m ∈ st.machines) :
    rollcall ord g now cl u m =
      ⟨.duplicate, dictSet cl (_norm (pyStrip u))
        { st with last_update := now }, []⟩ := by
  simp only [rollcall]
  rw [if_neg (by push_neg; exact ⟨hu, hm⟩)]
  rw [hstate, if_pos hmem]

lemma rollcall_new_device (ord : List String) (g : GatewayStep) (now : Int)
    (cl : Checklists) (u m : String) {st : Session}
    (hu : pyStrip u ≠ "") (hm : pyStrip m ≠ "")
    (hstate : resolveState cl (_norm (pyStrip u)) (pyStrip u) now = st)
    (hmem : pyStrip m ∉ st.machines) :
    rollcall ord g now cl u m =
      ⟨.ok, dictSet cl (_norm (pyStrip u))
        (_update_single_message ord g
          { st with
            machines := st.machines ++ [pyStrip m]
            last_update := now }).1,
        (_update_single_message ord g
          { st with
            machines := st.machines ++ [pyStrip m]
            last_update := now }).2⟩ := by
  simp only [rollcall]
  rw [if_neg (by push_neg; exact ⟨hu, hm⟩)]
  rw [hstate, if_neg hmem]

lemma rollcall_freshlike (ord : List String) (g : GatewayStep) (now : Int)
    (cl : Checklists) (u m : String)
    (hu : pyStrip u ≠ "") (hm : pyStrip m ≠ "")
    (hres : resolveState cl (_norm (pyStrip u)) (pyStrip u) now =
      freshSession (pyStrip u) now) :
    rollcall ord g now cl u m =
      ⟨.ok, dictSet cl (_norm (pyStrip u))
        (_update_single_message ord g
          ⟨pyStrip u, [pyStrip m], now, none⟩).1,
        (_update_single_message ord g
          ⟨pyStrip u, [pyStrip m], now, none⟩).2⟩ := by
  have h1 := rollcall_new_device ord g now cl u m hu hm hres
    (by simp [freshSession])
  rw [h1]
  simp [freshSession]

/-- C2: whenever the session has no message handle or the edit attempt
fails, the reconciler attempts send; on send success it stores the returned
handle and best-effort deletes a differing prior handle; on send failure it
leaves the session unchanged. -/
theorem C2_edit_failure_send_path (ord : List String) (g : GatewayStep)
    (st : Session)
    (h : pyTruthy st.message_id = false ∨ g.editOutcome = false) :
    GCall.send (_render_checklist_text ord st.title st.machines) ∈
      (_update_single_message ord g st).2 ∧
    (pyTruthy g.sendOutcome = true →
      (_update_single_message ord g st).1.message_id =
        some (g.sendOutcome.getD 0) ∧
      (∀ h0, st.message_id = some h0 → h0 ≠ 0 →
        h0 ≠ g.sendOutcome.getD 0 →
        GCall.delete h0 ∈ (_update_single_message ord g st).2)) ∧
    (pyTruthy g.sendOutcome = false →
      (_update_single_message ord g st).1 = st) := by
  have hne : (pyTruthy st.message_id && g.editOutcome) = false := by
    rcases h with h | h <;> simp [h]
  refine ⟨?_, ?_, ?_⟩
  · by_cases hs : pyTruthy g.sendOutcome = true
    · simp [_update_single_message, hne, hs]
    · have hs2 : pyTruthy g.sendOutcome = false := by
        simpa using hs
      simp [_update_single_message, hne, hs2]
  · intro hs
    constructor
    · simp [_update_single_message, hne, hs]
    · intro h0 hh0 hnz hne2
      have htr : pyTruthy st.message_id = true := by simp [hh0, pyTruthy, hnz]
      have hef : g.editOutcome = false := by
        rcases h with h | h
        · rw [htr] at h; cases h
        · exact h
      have hget : st.message_id.getD 0 = h0 := by simp [hh0]
      simp [_update_single_message, hne, hs, htr, hef, hget, hne2]
  · intro hs
    exact update_send_fail ord g st hs

theorem C2_edit_failure_send_path_witness :
    GCall.delete 3 ∈
      (_update_single_message [] ⟨false, some 5⟩ ⟨"t", ["m"], 0, some 3⟩).2 := by
  have h := C2_edit_failure_send_path [] ⟨false, some 5⟩
    ⟨"t", ["m"], 0, some 3⟩ (Or.inr rfl)
  exact (h.2.1 (by decide)).2 3 rfl (by decide) (by decide)

/-- C3: from a store with no entry for the live key, two immediate
check-ins with the same username and machine return accepted then
duplicate, the device is recorded exactly once, the duplicate performs no
gateway call, and only the timestamp is refreshed. -/
theorem C3_dedup_idempotence (ord : List String) (g1 g2 : GatewayStep)
    (t1 t2 : Int) (cl : Checklists) (u m : String)
    (hu : pyStrip u ≠ "") (hm : pyStrip m ≠ "")
    (hnone : dictGet cl (_norm (pyStrip u)) = none)
    (hlive : t2 - t1 < SESSION_EXPIRE_SECONDS) :
    (rollcall ord g1 t1 cl u m).status = .ok ∧
    (rollcall ord g2 t2 (rollcall ord g1 t1 cl u m).store u m).status =
      .duplicate ∧
    (rollcall ord g2 t2 (rollcall ord g1 t1 cl u m).store u m).calls = [] ∧
    ∃ s1, dictGet (rollcall ord g1 t1 cl u m).store (_norm (pyStrip u)) =
        some s1 ∧
      s1.machines.count (pyStrip m) = 1 ∧
      dictGet (rollcall ord g2 t2 (rollcall ord g1 t1 cl u m).store u
          m).store (_norm (pyStrip u)) = some { s1 with last_update := t2 } := by
  have hres := resolveState_none (pyStrip u) t1 hnone
  have h1 := rollcall_freshlike ord g1 t1 cl u m hu hm hres
  have hpre := update_preserves ord g1 ⟨pyStrip u, [pyStrip m], t1, none⟩
  set S1 := (_update_single_message ord g1
    ⟨pyStrip u, [pyStrip m], t1, none⟩).1 with hS1
  have hget1 : dictGet (rollcall ord g1 t1 cl u m).store
      (_norm (pyStrip u)) = some S1 := by
    rw [h1]; exact dictGet_dictSet_self cl _ S1
  have hmach : S1.machines = [pyStrip m] := hpre.2.1
  have hlast : S1.last_update = t1 := hpre.2.2
  have hres2 : resolveState (rollcall ord g1 t1 cl u m).store
      (_norm (pyStrip u)) (pyStrip u) t2 = S1 := by
    apply resolveState_live (pyStrip u) t2 hget1
    rw [hlast]
    exact not_le.mpr hlive
  have hmem2 : pyStrip m ∈ S1.machines := by rw [hmach]; simp
  have h2 := rollcall_duplicate ord g2 t2
    (rollcall ord g1 t1 cl u m).store u m hu hm hres2 hmem2
  refine ⟨by rw [h1], by rw [h2], by rw [h2], S1, hget1, ?_, ?_⟩
  · rw [hmach]; simp
  · rw [h2]
    exact dictGet_dictSet_self _ _ _

theorem C3_dedup_idempotence_witness :
    (rollcall [] ⟨true, some 1⟩ 0 [] "Alice" "cam1").status = .ok ∧
    (rollcall [] ⟨false, none⟩ 5
      (rollcall [] ⟨true, some 1⟩ 0 [] "Alice" "cam1").store
      "Alice" "cam1").status = .duplicate ∧
    (rollcall [] ⟨false, none⟩ 5
      (rollcall [] ⟨true, some 1⟩ 0 [] "Alice" "cam1").store
      "Alice" "cam1").calls = [] := by
  have h := C3_dedup_idempotence [] ⟨true, some 1⟩ ⟨false, none⟩ 0 5 []
    "Alice" "cam1" (by decide) (by decide) rfl (by decide)
  exact ⟨h.1, h.2.1, h.2.2.1⟩

/-- C4: when the live key has an expired session, the next check-in builds a
fresh session with empty device set, freshly captured title, and no message
handle, and the check-in is accepted with only the new device recorded. -/
theorem C4_expiry_rotation (ord : List String) (g : GatewayStep) (now : Int)
    (cl : Checklists) (u m : String) (s : Session)
    (hu : pyStrip u ≠ "") (hm : pyStrip m ≠ "")
    (hs : dictGet cl (_norm (pyStrip u)) = some s)
    (hexp : now - s.last_update ≥ SESSION_EXPIRE_SECONDS) :
    resolveState cl (_norm (pyStrip u)) (pyStrip u) now =
      freshSession (pyStrip u) now ∧
    (freshSession (pyStrip u) now).machines = [] ∧
    (freshSession (pyStrip u) now).message_id = none ∧
    (freshSession (pyStrip u) now).title = pyStrip u ∧
    (rollcall ord g now cl u m).status = .ok ∧
    ∃ s2, dictGet (rollcall ord g now cl u m).store (_norm (pyStrip u)) =
        some s2 ∧ s2.machines = [pyStrip m] ∧ s2.title = pyStrip u ∧
        s2.last_update = now := by
  have hres := resolveState_expired (pyStrip u) now hs hexp
  have h1 := rollcall_freshlike ord g now cl u m hu hm hres
  have hpre := update_preserves ord g ⟨pyStrip u, [pyStrip m], now, none⟩
  refine ⟨hres, rfl, rfl, rfl, by rw [h1],
    (_update_single_message ord g ⟨pyStrip u, [pyStrip m], now, none⟩).1,
    ?_, hpre.2.1, hpre.1, hpre.2.2⟩
  rw [h1]
  exact dictGet_dictSet_self _ _ _

theorem C4_expiry_rotation_witness :
    (rollcall [] ⟨true, some 7⟩ 2400
      [("bob", ⟨"Bob", ["cam1", "cam2"], 0, some 3⟩)] "Bob" "cam3").status =
      .ok ∧
    dictGet (rollcall [] ⟨true, some 7⟩ 2400
      [("bob", ⟨"Bob", ["cam1", "cam2"], 0, some 3⟩)] "Bob" "cam3").store
      "bob" = some ⟨"Bob", ["cam3"], 2400, some 7⟩ := by
  have h := C4_expiry_rotation [] ⟨true, some 7⟩ 2400
    [("bob", ⟨"Bob", ["cam1", "cam2"], 0, some 3⟩)] "Bob" "cam3"
    ⟨"Bob", ["cam1", "cam2"], 0, some 3⟩ (by decide) (by decide) rfl
    (by decide)
  refine ⟨h.2.2.2.2.1, ?_⟩
  decide

/-- C9: the status of a check-in does not depend on the gateway outcomes and
is never a client error for non-empty inputs, the device remains recorded in
the stored session whatever the gateway does, and logout reports success to
its caller unconditionally. -/
theorem C9_gateway_failure_isolation (ord : List String) (g g2 : GatewayStep)
    (now : Int) (cl : Checklists) (u m : String)
    (hu : pyStrip u ≠ "") (hm : pyStrip m ≠ "") :
    (rollcall ord g now cl u m).status = (rollcall ord g2 now cl u m).status ∧
    (rollcall ord g now cl u m).status ≠ .invalid ∧
    (∃ s, dictGet (rollcall ord g now cl u m).store (_norm (pyStrip u)) =
        some s ∧ pyStrip m ∈ s.machines) ∧
    (logout u).1 = .warning_sent := by
  set st := resolveState cl (_norm (pyStrip u)) (pyStrip u) now with hst
  by_cases hmem : pyStrip m ∈ st.machines
  · have h1 := rollcall_duplicate ord g now cl u m hu hm hst.symm hmem
    have h2 := rollcall_duplicate ord g2 now cl u m hu hm hst.symm hmem
    refine ⟨?_, ?_, ?_, ?_⟩
    · rw [h1, h2]
    · rw [h1]; simp
    · refine ⟨{ st with last_update := now }, ?_, hmem⟩
      rw [h1]
      exact dictGet_dictSet_self _ _ _
    · simp [logout, hu]
  · have h1 := rollcall_new_device ord g now cl u m hu hm hst.symm hmem
    have h2 := rollcall_new_device ord g2 now cl u m hu hm hst.symm hmem
    have hpre := update_preserves ord g
      { st with machines := st.machines ++ [pyStrip m], last_update := now }
    refine ⟨?_, ?_, ?_, ?_⟩
    · rw [h1, h2]
    · rw [h1]; simp
    · refine ⟨(_update_single_message ord g
        { st with
          machines := st.machines ++ [pyStrip m]
          last_update := now }).1, ?_, ?_⟩
      · rw [h1]
        exact dictGet_dictSet_self _ _ _
      · rw [hpre.2.1]
        simp
    · simp [logout, hu]

theorem C9_gateway_failure_isolation_witness :
    (rollcall [] ⟨false, none⟩ 0 [] "Alice" "cam1").status =
      (rollcall [] ⟨true, some 1⟩ 0 [] "Alice" "cam1").status ∧
    (rollcall [] ⟨false, none⟩ 0 [] "Alice" "cam1").status ≠ .invalid ∧
    (logout "Alice").1 = .warning_sent := by
  have h := C9_gateway_failure_isolation [] ⟨false, none⟩ ⟨true, some 1⟩ 0 []
    "Alice" "cam1" (by decide) (by decide)
  exact ⟨h.1, h.2.1, h.2.2.2⟩

lemma countSends_append (a b : List GCall) :
    countSends (a ++ b) = countSends a + countSends b := by
  simp [countSends, List.filter_append]

lemma countEdits_append (a b : List GCall) :
    countEdits (a ++ b) = countEdits a + countEdits b := by
  simp [countEdits, List.filter_append]

lemma countDeletes_append (a b : List GCall) :
    countDeletes (a ++ b) = countDeletes a + countDeletes b := by
  simp [countDeletes, List.filter_append]

lemma countSends_edit (i : Nat) (t : String) :
    countSends [GCall.edit i t] = 0 := rfl

lemma countEdits_edit (i : Nat) (t : String) :
    countEdits [GCall.edit i t] = 1 := rfl

lemma countDeletes_edit (i : Nat) (t : String) :
    countDeletes [GCall.edit i t] = 0 := rfl

lemma countSends_send (t : String) : countSends [GCall.send t] = 1 := rfl

lemma countEdits_send (t : String) : countEdits [GCall.send t] = 0 := rfl

lemma countDeletes_send (t : String) : countDeletes [GCall.send t] = 0 := rfl

lemma countSends_cons_edit (i : Nat) (t : String) (l : List GCall) :
    countSends (GCall.edit i t :: l) = countSends l := by
  simp [countSends, List.filter_cons, isSend]

lemma countEdits_cons_edit (i : Nat) (t : String) (l : List GCall) :
    countEdits (GCall.edit i t :: l) = countEdits l + 1 := by
  simp [countEdits, List.filter_cons, isEdit]

lemma countDeletes_cons_edit (i : Nat) (t : String) (l : List GCall) :
    countDeletes (GCall.edit i t :: l) = countDeletes l := by
  simp [countDeletes, List.filter_cons, isDelete]

lemma countSends_cons_send (t : String) (l : List GCall) :
    countSends (GCall.send t :: l) = countSends l + 1 := by
  simp [countSends, List.filter_cons, isSend]

lemma countEdits_cons_send (t : String) (l : List GCall) :
    countEdits (GCall.send t :: l) = countEdits l := by
  simp [countEdits, List.filter_cons, isEdit]

lemma countDeletes_cons_send (t : String) (l : List GCall) :
    countDeletes (GCall.send t :: l) = countDeletes l := by
  simp [countDeletes, List.filter_cons, isDelete]

lemma runSession_live (ord : List String) (u : String) (hu : pyStrip u ≠ "") :
    ∀ (inputs : List CheckIn) (cl : Checklists) (s : Session),
      dictGet cl (_norm (pyStrip u)) = some s →
      pyTruthy s.message_id = true →
      goodInputs s.machines s.last_update inputs = true →
      (runSession ord u cl inputs).2.2 =
        List.replicate inputs.length RollStatus.ok ∧
      countSends (runSession ord u cl inputs).2.1 = 0 ∧
      countEdits (runSession ord u cl inputs).2.1 = inputs.length ∧
      countDeletes (runSession ord u cl inputs).2.1 = 0 ∧
      (runSession ord u cl inputs).2.1.length = inputs.length ∧
      ∃ s2, dictGet (runSession ord u cl inputs).1 (_norm (pyStrip u)) =
        some s2 := by
  intro inputs
  induction inputs with
  | nil =>
    intro cl s hget htr hgood
    exact ⟨rfl, rfl, rfl, rfl, rfl, s, hget⟩
  | cons c rest ih =>
    intro cl s hget htr hgood
    simp only [goodInputs, Bool.and_eq_true, decide_eq_true_eq] at hgood
    obtain ⟨⟨⟨⟨hm, hnm⟩, htime⟩, hedit⟩, hrest⟩ := hgood
    have hres : resolveState cl (_norm (pyStrip u)) (pyStrip u) c.now = s :=
      resolveState_live (pyStrip u) c.now hget (not_le.mpr htime)
    have h1 := rollcall_new_device ord c.g c.now cl u c.machine hu hm hres hnm
    have hupd := update_edit_success ord c.g
      { s with machines := s.machines ++ [pyStrip c.machine],
               last_update := c.now } htr hedit
    rw [hupd] at h1
    obtain ⟨hst2, hs2, he2, hd2, hl2, s3, hget3⟩ := ih
      (dictSet cl (_norm (pyStrip u))
        { s with machines := s.machines ++ [pyStrip c.machine],
                 last_update := c.now })
      { s with machines := s.machines ++ [pyStrip c.machine],
               last_update := c.now }
      (dictGet_dictSet_self _ _ _) htr hrest
    refine ⟨?_, ?_, ?_, ?_, ?_, s3, ?_⟩
    · simp only [runSession]
      rw [h1]
      simp [hst2, List.replicate_succ]
    · simp only [runSession]
      rw [h1]
      simp [countSends_append, countSends_edit, countSends_cons_edit, hs2]
    · simp only [runSession]
      rw [h1]
      simp [countEdits_append, countEdits_edit, countEdits_cons_edit, he2]
    · simp only [runSession]
      rw [h1]
      simp [countDeletes_append, countDeletes_edit, countDeletes_cons_edit, hd2]
    · simp only [runSession]
      rw [h1]
      simp [hl2]
    · simp only [runSession]
      rw [h1]
      simpa using hget3

/-- C1: starting from a store with no session for the key, a run of N
consecutive fresh check-ins in which the first send succeeds and every later
edit succeeds returns accepted N times, makes exactly one send call and
exactly N minus 1 edit calls with no deletes and one gateway call per
check-in, and a successful edit is the only gateway call of its
reconciliation. -/
theorem C1_reconciliation_monotonicity (ord : List String) (u : String)
    (c0 : CheckIn) (rest : List CheckIn) (cl : Checklists)
    (hu : pyStrip u ≠ "")
    (hnone : dictGet cl (_norm (pyStrip u)) = none)
    (hm0 : pyStrip c0.machine ≠ "")
    (hsend : pyTruthy c0.g.sendOutcome = true)
    (hgood : goodInputs [pyStrip c0.machine] c0.now rest = true) :
    (runSession ord u cl (c0 :: rest)).2.2 =
      List.replicate (rest.length + 1) RollStatus.ok ∧
    countSends (runSession ord u cl (c0 :: rest)).2.1 = 1 ∧
    countEdits (runSession ord u cl (c0 :: rest)).2.1 = rest.length ∧
    countDeletes (runSession ord u cl (c0 :: rest)).2.1 = 0 ∧
    (runSession ord u cl (c0 :: rest)).2.1.length = rest.length + 1 ∧
    (∀ g1 st, pyTruthy st.message_id = true → g1.editOutcome = true →
      (_update_single_message ord g1 st).2 =
        [GCall.edit (st.message_id.getD 0)
          (_render_checklist_text ord st.title st.machines)]) := by
  have hres := resolveState_none (pyStrip u) c0.now hnone
  have h1 := rollcall_freshlike ord c0.g c0.now cl u c0.machine hu hm0 hres
  have hupd : _update_single_message ord c0.g
      ⟨pyStrip u, [pyStrip c0.machine], c0.now, none⟩ =
      (⟨pyStrip u, [pyStrip c0.machine], c0.now,
        some (c0.g.sendOutcome.getD 0)⟩,
       [GCall.send (_render_checklist_text ord (pyStrip u)
         [pyStrip c0.machine])]) := by
    rw [update_fresh_send ord c0.g
      ⟨pyStrip u, [pyStrip c0.machine], c0.now, none⟩ rfl hsend]
  rw [hupd] at h1
  have htr2 : pyTruthy (some (c0.g.sendOutcome.getD 0)) = true := by
    simp [pyTruthy, (pyTruthy_some hsend).2]
  obtain ⟨hst2, hs2, he2, hd2, hl2, s3, hget3⟩ :=
    runSession_live ord u hu rest
      (dictSet cl (_norm (pyStrip u))
        ⟨pyStrip u, [pyStrip c0.machine], c0.now,
          some (c0.g.sendOutcome.getD 0)⟩)
      ⟨pyStrip u, [pyStrip c0.machine], c0.now,
        some (c0.g.sendOutcome.getD 0)⟩
      (dictGet_dictSet_self _ _ _) htr2 hgood
  refine ⟨?_, ?_, ?_, ?_, ?_, ?_⟩
  · simp only [runSession]
    rw [h1]
    simp [hst2, List.replicate_succ]
  · simp only [runSession]
    rw [h1]
    simp [countSends_append, countSends_send, countSends_cons_send, hs2]
  · simp only [runSession]
    rw [h1]
    simp [countEdits_append, countEdits_send, countEdits_cons_send, he2]
  · simp only [runSession]
    rw [h1]
    simp [countDeletes_append, countDeletes_send, countDeletes_cons_send, hd2]
  · simp only [runSession]
    rw [h1]
    simp [hl2]
  · intro g1 st htr3 hed3
    rw [update_edit_success ord g1 st htr3 hed3]

theorem C1_reconciliation_monotonicity_witness :
    (runSession [] "Alice" []
      [⟨0, ⟨true, some 1⟩, "cam1"⟩, ⟨10, ⟨true, some 2⟩, "cam2"⟩,
       ⟨20, ⟨true, some 3⟩, "cam3"⟩]).2.2 =
      List.replicate 3 RollStatus.ok ∧
    countSends (runSession [] "Alice" []
      [⟨0, ⟨true, some 1⟩, "cam1"⟩, ⟨10, ⟨true, some 2⟩, "cam2"⟩,
       ⟨20, ⟨true, some 3⟩, "cam3"⟩]).2.1 = 1 ∧
    countEdits (runSession [] "Alice" []
      [⟨0, ⟨true, some 1⟩, "cam1"⟩, ⟨10, ⟨true, some 2⟩, "cam2"⟩,
       ⟨20, ⟨true, some 3⟩, "cam3"⟩]).2.1 = 2 := by
  have h := C1_reconciliation_monotonicity [] "Alice"
    ⟨0, ⟨true, some 1⟩, "cam1"⟩
    [⟨10, ⟨true, some 2⟩, "cam2"⟩, ⟨20, ⟨true, some 3⟩, "cam3"⟩] []
    (by decide) rfl (by decide) rfl (by decide)
  exact ⟨h.1, h.2.1, h.2.2.1⟩

lemma update_send_id (ord : List String) (g : GatewayStep) (st : Session)
    (hna : (pyTruthy st.message_id && g.editOutcome) = false)
    (hsend : pyTruthy g.sendOutcome = true) :
    (_update_single_message ord g st).1 =
      { st with message_id := some (g.sendOutcome.getD 0) } := by
  simp [_update_single_message, hna, hsend]

lemma update_delete_mem (ord : List String) (g : GatewayStep) (st : Session)
    (h : Nat) (hid : st.message_id = some h) (hnz : h ≠ 0)
    (hedit : g.editOutcome = false) (hsend : pyTruthy g.sendOutcome = true)
    (hne2 : h ≠ g.sendOutcome.getD 0) :
    GCall.delete h ∈ (_update_single_message ord g st).2 := by
  have htr : pyTruthy st.message_id = true := by simp [hid, pyTruthy, hnz]
  have hget : st.message_id.getD 0 = h := by simp [hid]
  simp [_update_single_message, htr, hedit, hsend, hget, hne2]

/-- C5 counterexample: across an expiry-triggered session replacement the
stored message handle for the live key changes from one present value (1) to
a different present value (2), yet no delete call is ever issued, so the old
outbound message is abandoned rather than removed. -/
theorem C5_no_delete_on_expiry_cex :
    (dictGet (rollcall [] ⟨true, some 1⟩ 0 [] "alice" "cam1").store
      "alice").bind Session.message_id = some 1 ∧
    (dictGet (rollcall [] ⟨true, some 2⟩ 2400
      (rollcall [] ⟨true, some 1⟩ 0 [] "alice" "cam1").store
      "alice" "cam2").store "alice").bind Session.message_id = some 2 ∧
    countDeletes ((rollcall [] ⟨true, some 1⟩ 0 [] "alice" "cam1").calls ++
      (rollcall [] ⟨true, some 2⟩ 2400
        (rollcall [] ⟨true, some 1⟩ 0 [] "alice" "cam1").store
        "alice" "cam2").calls) = 0 := by
  decide

/-- C5 amended: within the lifetime of one live (non-expired) session,
whenever a check-in changes the stored message handle from one nonzero
present value to a different present value, a best-effort delete of the
prior message is attempted; across expiry-triggered replacement the fresh
session starts with no handle and no delete of the prior message occurs. -/
theorem C5_single_message_within_session (ord : List String)
    (g : GatewayStep) (now : Int) (cl : Checklists) (u m : String)
    (s : Session) (h h2 : Nat)
    (hs : dictGet cl (_norm (pyStrip u)) = some s)
    (hid : s.message_id = some h) (hnz : h ≠ 0)
    (hlive : now - s.last_update < SESSION_EXPIRE_SECONDS)
    (hafter : (dictGet (rollcall ord g now cl u m).store
      (_norm (pyStrip u))).bind Session.message_id = some h2)
    (hne : h2 ≠ h) :
    GCall.delete h ∈ (rollcall ord g now cl u m).calls := by
  by_cases hval : pyStrip u = "" ∨ pyStrip m = ""
  · exfalso
    rw [rollcall_invalid ord g now cl u m hval] at hafter
    simp only [hs, Option.bind] at hafter
    rw [hid] at hafter
    exact hne (Option.some.inj hafter).symm
  · push_neg at hval
    obtain ⟨hu, hm⟩ := hval
    have hres : resolveState cl (_norm (pyStrip u)) (pyStrip u) now = s :=
      resolveState_live (pyStrip u) now hs (not_le.mpr hlive)
    by_cases hmem : pyStrip m ∈ s.machines
    · exfalso
      rw [rollcall_duplicate ord g now cl u m hu hm hres hmem] at hafter
      simp only [dictGet_dictSet_self, Option.bind] at hafter
      rw [hid] at hafter
      exact hne (Option.some.inj hafter).symm
    · have h1 := rollcall_new_device ord g now cl u m hu hm hres hmem
      have htr : pyTruthy ({ s with
          machines := s.machines ++ [pyStrip m],
          last_update := now } : Session).message_id = true := by
        simp [hid, pyTruthy, hnz]
      by_cases hedit : g.editOutcome = true
      · exfalso
        have hupd := update_edit_success ord g
          { s with machines := s.machines ++ [pyStrip m],
                   last_update := now } htr hedit
        rw [h1] at hafter
        simp only [hupd, dictGet_dictSet_self, Option.bind] at hafter
        rw [hid] at hafter
        exact hne (Option.some.inj hafter).symm
      · have hedit2 : g.editOutcome = false := by simpa using hedit
        by_cases hsend : pyTruthy g.sendOutcome = true
        · have hna : (pyTruthy ({ s with
              machines := s.machines ++ [pyStrip m],
              last_update := now } : Session).message_id &&
              g.editOutcome) = false := by
            simp [hedit2]
          have hid1 : (_update_single_message ord g
              { s with machines := s.machines ++ [pyStrip m],
                       last_update := now }).1.message_id =
              some (g.sendOutcome.getD 0) := by
            rw [update_send_id ord g _ hna hsend]
          have hh2 : h2 = g.sendOutcome.getD 0 := by
            rw [h1] at hafter
            simp only [dictGet_dictSet_self, Option.bind] at hafter
            rw [hid1] at hafter
            exact (Option.some.inj hafter).symm
          rw [h1]
          exact update_delete_mem ord g _ h hid hnz hedit2 hsend
            (fun hc => hne (hh2.trans hc.symm))
        · exfalso
          have hsend2 : pyTruthy g.sendOutcome = false := by simpa using hsend
          have hupd := update_send_fail ord g
            { s with machines := s.machines ++ [pyStrip m],
                     last_update := now } hsend2
          rw [h1] at hafter
          simp only [hupd, dictGet_dictSet_self, Option.bind] at hafter
          rw [hid] at hafter
          exact hne (Option.some.inj hafter).symm

theorem C5_single_message_within_session_witness :
    GCall.delete 1 ∈ (rollcall [] ⟨false, some 2⟩ 5
      [("u1", ⟨"u1", ["cam1"], 0, some 1⟩)] "u1" "cam2").calls := by
  exact C5_single_message_within_session [] ⟨false, some 2⟩ 5
    [("u1", ⟨"u1", ["cam1"], 0, some 1⟩)] "u1" "cam2"
    ⟨"u1", ["cam1"], 0, some 1⟩ 1 2 (by decide) rfl (by decide) (by decide)
    (by decide) (by decide)

lemma pyCharsLe_total (a : List Char) :
    ∀ b, pyCharsLe a b = true ∨ pyCharsLe b a = true := by
  induction a with
  | nil => intro b; left; rfl
  | cons x xs ih =>
    intro b
    cases b with
    | nil => right; rfl
    | cons y ys =>
      rcases lt_trichotomy x y with hxy | hxy | hxy
      · left; simp [pyCharsLe, hxy]
      · subst hxy
        rcases ih ys with h | h
        · left; simpa [pyCharsLe, lt_self_iff_false] using h
        · right; simpa [pyCharsLe, lt_self_iff_false] using h
      · right; simp [pyCharsLe, hxy]

lemma pyCharsLe_trans (a : List Char) :
    ∀ b c, pyCharsLe a b = true → pyCharsLe b c = true →
      pyCharsLe a c = true := by
  induction a with
  | nil => intro b c _ _; rfl
  | cons x xs ih =>
    intro b c hab hbc
    cases b with
    | nil => simp [pyCharsLe] at hab
    | cons y ys =>
      cases c with
      | nil => simp [pyCharsLe] at hbc
      | cons z zs =>
        rcases lt_trichotomy x y with h1 | h1 | h1
        · rcases lt_trichotomy y z with h2 | h2 | h2
          · have h3 : x < z := lt_trans h1 h2
            simp [pyCharsLe, h3]
          · subst h2; simp [pyCharsLe, h1]
          · exfalso
            simp [pyCharsLe, not_lt_of_gt h2, h2] at hbc
        · subst h1
          rcases lt_trichotomy x z with h2 | h2 | h2
          · simp [pyCharsLe, h2]
          · subst h2
            simp only [pyCharsLe, lt_self_iff_false, if_false] at hab hbc ⊢
            exact ih ys zs hab hbc
          · exfalso
            simp [pyCharsLe, not_lt_of_gt h2, h2] at hbc
        · exfalso
          simp [pyCharsLe, not_lt_of_gt h1, h1] at hab

lemma pyCharsLe_antisymm (a : List Char) :
    ∀ b, pyCharsLe a b = true → pyCharsLe b a = true → a = b := by
  induction a with
  | nil =>
    intro b hab hba
    cases b with
    | nil => rfl
    | cons y ys => simp [pyCharsLe] at hba
  | cons x xs ih =>
    intro b hab hba
    cases b with
    | nil => simp [pyCharsLe] at hab
    | cons y ys =>
      rcases lt_trichotomy x y with h1 | h1 | h1
      · exfalso; simp [pyCharsLe, not_lt_of_gt h1, h1] at hba
      · subst h1
        simp only [pyCharsLe, lt_self_iff_false, if_false] at hab hba
        rw [ih ys hab hba]
      · exfalso; simp [pyCharsLe, not_lt_of_gt h1, h1] at hab

instance : IsTotal String keyLe :=
  ⟨fun a b => pyCharsLe_total (pyLower a).data (pyLower b).data⟩

instance : IsTrans String keyLe :=
  ⟨fun _ _ _ hab hbc => pyCharsLe_trans _ _ _ hab hbc⟩

lemma keyLe_antisymm {a b : String} (hab : keyLe a b) (hba : keyLe b a) :
    pyLower a = pyLower b :=
  congrArg String.mk (pyCharsLe_antisymm _ _ hab hba)

lemma sorted_key_eq (l1 : List String) : ∀ l2 : List String, l1.Perm l2 →
    l1.Pairwise keyLe → l2.Pairwise keyLe → (l1.map pyLower).Nodup →
    l1 = l2 := by
  induction l1 with
  | nil =>
    intro l2 hp _ _ _
    exact (List.Perm.eq_nil hp.symm).symm
  | cons a t ihl =>
    intro l2 hp hs1 hs2 hnd
    cases l2 with
    | nil => exact absurd (List.Perm.eq_nil hp) (by simp)
    | cons b t2 =>
      have hab : a = b := by
        by_contra hne
        have hbin : b ∈ t := by
          have hmem : b ∈ a :: t := hp.mem_iff.mpr (List.mem_cons_self b t2)
          rcases List.mem_cons.mp hmem with h | h
          · exact absurd h.symm hne
          · exact h
        have hain : a ∈ t2 := by
          have hmem : a ∈ b :: t2 := hp.mem_iff.mp (List.mem_cons_self a t)
          rcases List.mem_cons.mp hmem with h | h
          · exact absurd h hne
          · exact h
        have h1 : keyLe a b := (List.pairwise_cons.mp hs1).1 b hbin
        have h2 : keyLe b a := (List.pairwise_cons.mp hs2).1 a hain
        have hlow : pyLower a = pyLower b := keyLe_antisymm h1 h2
        have hmap : pyLower b ∈ t.map pyLower :=
          List.mem_map_of_mem pyLower hbin
        rw [← hlow] at hmap
        have hnd2 : (pyLower a :: t.map pyLower).Nodup := by simpa using hnd
        exact (List.nodup_cons.mp hnd2).1 hmap
      subst hab
      have hnd2 : (pyLower a :: t.map pyLower).Nodup := by simpa using hnd
      rw [ihl t2 hp.cons_inv (List.pairwise_cons.mp hs1).2
        (List.pairwise_cons.mp hs2).2 (List.nodup_cons.mp hnd2).2]

/-- C6 counterexample: for two insertion orders of the same two-element
device set whose members differ only by letter case, the rendered text
differs, because the stable sort by lowered key preserves the set iteration
order between the tied elements. -/
theorem C6_casefold_insertion_order_cex :
    (["Cam1", "cam1"] : List String).Perm ["cam1", "Cam1"] ∧
    _render_checklist_text [] "t" ["Cam1", "cam1"] ≠
      _render_checklist_text [] "t" ["cam1", "Cam1"] := by
  constructor
  · exact List.Perm.swap "cam1" "Cam1" []
  · decide

/-- C6 amended: the renderer is a pure function of its arguments, and its
output is independent of the insertion order of the device set provided no
two distinct reported devices are equal after case folding; with case-folded
duplicates the output can depend on the set iteration order. -/
theorem C6_render_determinism_amended (ord : List String) (title : String)
    (l1 l2 : List String) (hperm : l1.Perm l2)
    (hnodup : (l1.map pyLower).Nodup) :
    _render_checklist_text ord title l1 = _render_checklist_text ord title l2
    := by
  have hfilter := hperm.filter (fun m => decide (m ∉ ord))
  have hsort1 := List.perm_insertionSort keyLe
    (l1.filter (fun m => decide (m ∉ ord)))
  have hsort2 := List.perm_insertionSort keyLe
    (l2.filter (fun m => decide (m ∉ ord)))
  have hperm12 := hsort1.trans (hfilter.trans hsort2.symm)
  have hnd1 : ((List.insertionSort keyLe
      (l1.filter (fun m => decide (m ∉ ord)))).map pyLower).Nodup := by
    have hsub : ((l1.filter (fun m => decide (m ∉ ord))).map
        pyLower).Sublist (l1.map pyLower) :=
      (List.filter_sublist l1).map pyLower
    exact ((hsort1.map pyLower).symm).nodup (hsub.nodup hnodup)
  have heq : List.insertionSort keyLe
        (l1.filter (fun m => decide (m ∉ ord))) =
      List.insertionSort keyLe (l2.filter (fun m => decide (m ∉ ord))) :=
    sorted_key_eq _ _ hperm12 (List.sorted_insertionSort keyLe _)
      (List.sorted_insertionSort keyLe _) hnd1
  have hdisp : displayList ord l1 = displayList ord l2 := by
    unfold displayList
    rw [heq]
  have hcells : cellsOf ord l1 = cellsOf ord l2 := by
    unfold cellsOf
    rw [hdisp]
    apply List.map_congr_left
    intro name _
    by_cases hx : name ∈ l1
    · rw [if_pos hx, if_pos (hperm.mem_iff.mp hx)]
    · rw [if_neg hx, if_neg (fun hc => hx (hperm.mem_iff.mpr hc))]
  simp only [_render_checklist_text]
  rw [hcells]

theorem C6_render_determinism_amended_witness :
    _render_checklist_text [] "t" ["b", "A"] =
      _render_checklist_text [] "t" ["A", "b"] :=
  C6_render_determinism_amended [] "t" ["b", "A"] ["A", "b"]
    (List.Perm.swap "A" "b" []) (by decide)

/-- C7: the display sequence always puts the configured fixed-order items
first in their configured positions, followed by exactly the reported
devices not in the fixed order in case-insensitive sorted order, and each
cell is checked exactly when its item is a reported device. -/
theorem C7_display_ordering (ord machines : List String) :
    (displayList ord machines).take ord.length = ord ∧
    List.Sorted keyLe ((displayList ord machines).drop ord.length) ∧
    ((displayList ord machines).drop ord.length).Perm
      (machines.filter (fun m => decide (m ∉ ord))) ∧
    (∀ m, m ∈ machines → m ∉ ord →
      m ∈ (displayList ord machines).drop ord.length) ∧
    (∀ i, i < (displayList ord machines).length →
      (cellsOf ord machines).getD i "" =
        (if (displayList ord machines).getD i "" ∈ machines then "✅"
          else "☐") ++ " " ++ (displayList ord machines).getD i "") := by
  refine ⟨?_, ?_, ?_, ?_, ?_⟩
  · unfold displayList
    exact List.take_left ord _
  · unfold displayList
    rw [List.drop_left]
    exact List.sorted_insertionSort keyLe _
  · unfold displayList
    rw [List.drop_left]
    exact List.perm_insertionSort keyLe _
  · intro m hm hno
    unfold displayList
    rw [List.drop_left]
    exact (List.perm_insertionSort keyLe _).mem_iff.mpr
      (List.mem_filter.mpr ⟨hm, by simpa using hno⟩)
  · intro i hi
    unfold cellsOf
    simp [List.getD_eq_getElem?_getD, List.getElem?_map,
      List.getElem?_eq_getElem, hi]

theorem C7_display_ordering_witness :
    (displayList ["pc"] ["b", "A"]).take 1 = ["pc"] ∧
    "A" ∈ (displayList ["pc"] ["b", "A"]).drop 1 ∧
    (cellsOf ["pc"] ["b", "A"]).getD 0 "" = "☐ pc" := by
  have h := C7_display_ordering ["pc"] ["b", "A"]
  refine ⟨h.1, h.2.2.2.1 "A" (by decide) (by decide), ?_⟩
  have h5 := h.2.2.2.2 0 (by decide)
  rw [h5]
  decide

lemma maxLen_ge (l : List String) :
    ∀ a : Nat, a ≤ l.foldl (fun x c => Nat.max x c.length) a := by
  induction l with
  | nil => intro a; exact Nat.le_refl a
  | cons c t ih =>
    intro a
    simp only [List.foldl_cons]
    exact Nat.le_trans (Nat.le_max_left a c.length) (ih (Nat.max a c.length))

lemma le_maxLen_fold (l : List String) :
    ∀ (a : Nat) (s : String), s ∈ l →
      s.length ≤ l.foldl (fun x c => Nat.max x c.length) a := by
  induction l with
  | nil => intro a s hs; cases hs
  | cons c t ih =>
    intro a s hs
    simp only [List.foldl_cons]
    rcases List.mem_cons.mp hs with h | h
    · subst h
      exact Nat.le_trans (Nat.le_max_right a s.length) (maxLen_ge t _)
    · exact ih _ s h

lemma le_maxLen {l : List String} {s : String} (hs : s ∈ l) :
    s.length ≤ maxLen l := le_maxLen_fold l 0 s hs

lemma pyLjust_length (s : String) (w : Nat) (h : s.length ≤ w) :
    (pyLjust s w).length = w := by
  have h1 : (pyLjust s w).length = s.length + (w - s.length) := by
    simp [pyLjust]
  omega

/-- C8: the renderer agrees with the spec layout formula (two columns,
ceiling row count, item i at row i mod rows and column i div rows, column
one padded to the longest cell length plus 2, header line plus pre block,
placeholder on zero items); additionally every item index lands in one of
the two columns and every padded column-one entry has exactly the fixed
width. -/
theorem C8_two_column_layout (ord : List String) (title : String)
    (machines : List String) :
    _render_checklist_text ord title machines =
      renderSpecC8 ord title machines ∧
    (∀ i, i < (cellsOf ord machines).length →
      gridCell (cellsOf ord machines) (rowsOf (cellsOf ord machines))
        (i % rowsOf (cellsOf ord machines))
        (i / rowsOf (cellsOf ord machines)) =
        (cellsOf ord machines)[i]? ∧
      i / rowsOf (cellsOf ord machines) < 2) ∧
    (∀ r, r < rowsOf (cellsOf ord machines) →
      (pyLjust ((cellsOf ord machines).getD r "")
        (maxLen (cellsOf ord machines) + 2)).length =
        maxLen (cellsOf ord machines) + 2) := by
  refine ⟨?_, ?_, ?_⟩
  · by_cases hcells : cellsOf ord machines = []
    · simp [_render_checklist_text, renderSpecC8, rowsOf, hcells]
    · have hlen0 : (cellsOf ord machines).length ≠ 0 := by
        simpa [List.length_eq_zero] using hcells
      have hrows0 : ((cellsOf ord machines).length + 1) / 2 ≠ 0 := by omega
      have hfun : ∀ r ∈ List.range (((cellsOf ord machines).length + 1) / 2),
          pyLjust ((cellsOf ord machines).getD r "")
              (maxLen (cellsOf ord machines) + 2) ++
            (cellsOf ord machines).getD
              (r + ((cellsOf ord machines).length + 1) / 2) "" =
          pyLjust ((gridCell (cellsOf ord machines)
              (((cellsOf ord machines).length + 1) / 2) r 0).getD "")
              (maxLen (cellsOf ord machines) + 2) ++
            (gridCell (cellsOf ord machines)
              (((cellsOf ord machines).length + 1) / 2) r 1).getD "" := by
        intro r _
        unfold gridCell
        simp [List.getD_eq_getElem?_getD, Nat.add_comm]
      have hcw : (if cellsOf ord machines = [] then 10
          else maxLen (cellsOf ord machines) + 2) =
          maxLen (cellsOf ord machines) + 2 := if_neg hcells
      have hmapne : (List.range
          (((cellsOf ord machines).length + 1) / 2)).map
          (fun r => pyLjust ((cellsOf ord machines).getD r "")
            (maxLen (cellsOf ord machines) + 2) ++
            (cellsOf ord machines).getD
              (r + ((cellsOf ord machines).length + 1) / 2) "") ≠ [] := by
        simp [List.range_eq_nil, hrows0]
      simp only [_render_checklist_text, renderSpecC8, rowsOf]
      rw [hcw, if_neg hmapne, if_neg hlen0, List.map_congr_left hfun]
  · intro i hi
    have hrows : 0 < rowsOf (cellsOf ord machines) := by
      unfold rowsOf
      omega
    constructor
    · unfold gridCell
      have hdm := Nat.div_add_mod i (rowsOf (cellsOf ord machines))
      congr 1
      rw [Nat.mul_comm]
      exact hdm
    · have hle : (cellsOf ord machines).length ≤
          2 * rowsOf (cellsOf ord machines) := by
        unfold rowsOf
        omega
      have h2 : i < 2 * rowsOf (cellsOf ord machines) := by omega
      exact (Nat.div_lt_iff_lt_mul hrows).mpr h2
  · intro r hr
    apply pyLjust_length
    have hrlen : r < (cellsOf ord machines).length := by
      unfold rowsOf at hr
      omega
    have hmem : (cellsOf ord machines).getD r "" ∈ cellsOf ord machines := by
      rw [List.getD_eq_getElem?_getD, List.getElem?_eq_getElem hrlen]
      exact List.getElem_mem hrlen
    exact Nat.le_trans (le_maxLen hmem) (Nat.le_add_right _ 2)

theorem C8_two_column_layout_witness :
    _render_checklist_text [] "t" ["a", "b", "c"] =
      renderSpecC8 [] "t" ["a", "b", "c"] ∧
    gridCell (cellsOf [] ["a", "b", "c"])
      (rowsOf (cellsOf [] ["a", "b", "c"]))
      (2 % rowsOf (cellsOf [] ["a", "b", "c"]))
      (2 / rowsOf (cellsOf [] ["a", "b", "c"])) =
      (cellsOf [] ["a", "b", "c"])[2]? ∧
    (pyLjust ((cellsOf [] ["a", "b", "c"]).getD 0 "")
      (maxLen (cellsOf [] ["a", "b", "c"]) + 2)).length =
      maxLen (cellsOf [] ["a", "b", "c"]) + 2 := by
  have h := C8_two_column_layout [] "t" ["a", "b", "c"]
  exact ⟨h.1, (h.2.1 2 (by decide)).1, h.2.2 0 (by decide)⟩

/-- C10: machine names are compared verbatim: within a live session a
check-in for Cam1 after one for cam1 is accepted rather than deduplicated,
both spellings are recorded as distinct devices, and they render as two
separate checklist cells. -/
theorem C10_verbatim_machine_names (g1 g2 : GatewayStep) (t1 t2 : Int)
    (cl : Checklists) (u : String)
    (hu : pyStrip u ≠ "")
    (hnone : dictGet cl (_norm (pyStrip u)) = none)
    (hlive : t2 - t1 < SESSION_EXPIRE_SECONDS) :
    (rollcall DEVICE_ORDER g1 t1 cl u "cam1").status = .ok ∧
    (rollcall DEVICE_ORDER g2 t2
      (rollcall DEVICE_ORDER g1 t1 cl u "cam1").store u "Cam1").status =
      .ok ∧
    ∃ s, dictGet (rollcall DEVICE_ORDER g2 t2
        (rollcall DEVICE_ORDER g1 t1 cl u "cam1").store u "Cam1").store
        (_norm (pyStrip u)) = some s ∧
      s.machines = ["cam1", "Cam1"] ∧
      cellsOf DEVICE_ORDER s.machines = ["✅ cam1", "✅ Cam1"] := by
  have hres := resolveState_none (pyStrip u) t1 hnone
  have h1 := rollcall_freshlike DEVICE_ORDER g1 t1 cl u "cam1" hu
    (by decide) hres
  have hpre1 := update_preserves DEVICE_ORDER g1
    ⟨pyStrip u, [pyStrip "cam1"], t1, none⟩
  set S1 := (_update_single_message DEVICE_ORDER g1
    ⟨pyStrip u, [pyStrip "cam1"], t1, none⟩).1 with hS1def
  have hget1 : dictGet (rollcall DEVICE_ORDER g1 t1 cl u "cam1").store
      (_norm (pyStrip u)) = some S1 := by
    rw [h1]
    exact dictGet_dictSet_self _ _ _
  have hlast1 : S1.last_update = t1 := hpre1.2.2
  have hmach1 : S1.machines = [pyStrip "cam1"] := hpre1.2.1
  have hres2 : resolveState (rollcall DEVICE_ORDER g1 t1 cl u "cam1").store
      (_norm (pyStrip u)) (pyStrip u) t2 = S1 := by
    apply resolveState_live (pyStrip u) t2 hget1
    rw [hlast1]
    exact not_le.mpr hlive
  have hmem2 : pyStrip "Cam1" ∉ S1.machines := by
    rw [hmach1]
    decide
  have h2 := rollcall_new_device DEVICE_ORDER g2 t2
    (rollcall DEVICE_ORDER g1 t1 cl u "cam1").store u "Cam1" hu
    (by decide) hres2 hmem2
  have hpre2 : (_update_single_message DEVICE_ORDER g2
      { S1 with machines := S1.machines ++ [pyStrip "Cam1"],
                last_update := t2 }).1.machines =
      S1.machines ++ [pyStrip "Cam1"] :=
    (update_preserves DEVICE_ORDER g2
      { S1 with machines := S1.machines ++ [pyStrip "Cam1"],
                last_update := t2 }).2.1
  have hmachs : (_update_single_message DEVICE_ORDER g2
      { S1 with machines := S1.machines ++ [pyStrip "Cam1"],
                last_update := t2 }).1.machines = ["cam1", "Cam1"] := by
    rw [hpre2, hmach1]
    decide
  refine ⟨by rw [h1], by rw [h2],
    (_update_single_message DEVICE_ORDER g2
      { S1 with machines := S1.machines ++ [pyStrip "Cam1"],
                last_update := t2 }).1, ?_, hmachs, ?_⟩
  · rw [h2]
    exact dictGet_dictSet_self _ _ _
  · rw [hmachs]
    decide

theorem C10_verbatim_machine_names_witness :
    (rollcall DEVICE_ORDER ⟨true, some 1⟩ 0 [] "u2" "cam1").status = .ok ∧
    (rollcall DEVICE_ORDER ⟨true, some 1⟩ 1
      (rollcall DEVICE_ORDER ⟨true, some 1⟩ 0 [] "u2" "cam1").store
      "u2" "Cam1").status = .ok := by
  have h := C10_verbatim_machine_names ⟨true, some 1⟩ ⟨true, some 1⟩ 0 1 []
    "u2" (by decide) rfl (by decide)
  exact ⟨h.1, h.2.1⟩
